import Mathlib

/-!
Shallow embedding of `libs/interpreter_lib.py` (the `Interpreter` class of the
code-interpreter repository) together with theorems about its behaviour.

Strings model Python `str`; `Option String` models values that may be `None`;
the file system is modelled as the list of names of existing files; the
completion transport, the execution runners and the package installer are
external collaborators whose results are inputs to the embedded functions.
-/

namespace InterpLib

/-- `startsWithChars pat s` is true when `pat` is an initial segment of `s`
(character-level model of Python string slicing/startswith). -/
def startsWithChars : List Char → List Char → Bool
  | [], _ => true
  | _ :: _, [] => false
  | a :: as, b :: bs => a == b && startsWithChars as bs

/-- `containsChars pat s` is true when `pat` occurs contiguously in `s`
(character-level model of Python's `pat in s`). -/
def containsChars (pat : List Char) : List Char → Bool
  | [] => pat.isEmpty
  | c :: rest => startsWithChars pat (c :: rest) || containsChars pat rest

/-- Model of Python's `pat in s` substring test. -/
def strContains (s pat : String) : Bool := containsChars pat.data s.data

/-- Model of Python's `str.lower()` (ASCII letters, which covers every string
the interpreter lowercases). -/
def strLower (s : String) : String := ⟨s.data.map Char.toLower⟩

/-- The three mode flags set by `Interpreter.initialize_mode`. -/
structure ModeFlags where
  CODE_MODE : Bool
  SCRIPT_MODE : Bool
  COMMAND_MODE : Bool
deriving DecidableEq, Repr

/-- Embedding of `Interpreter.initialize_mode`: sets the three boolean flags
from the `mode` argument, then forces `CODE_MODE` when neither script nor
command mode is selected. -/
def initialize_mode (mode : String) : ModeFlags :=
  let code := mode == "code"
  let script := mode == "script"
  let command := mode == "command"
  let code := if !script && !command then true else code
  ⟨code, script, command⟩

/-- The fixed substring table used at `interpreter_main` line 336 to classify
an execution error as a missing-dependency error. -/
def error_messages : List String :=
  ["ModuleNotFound", "ImportError", "No module named", "Cannot find module"]

/-- Embedding of the classification at `interpreter_main` lines 336-337:
`code_error is not None and any(m in code_error for m in error_messages)`. -/
def missingDependency (code_error : Option String) : Bool :=
  match code_error with
  | none => false
  | some err => error_messages.any (fun m => strContains err m)

/-- The confirmation gate of `Interpreter.execute_code`:
`execute = 'y' if self.EXECUTE_CODE else input(...)`, then
`execute.lower() == 'y'`.  `userAnswer` is the text the user typed. -/
def executionGate (executeFlag : Bool) (userAnswer : String) : Bool :=
  strLower (if executeFlag then "y" else userAnswer) == "y"

/-- Result of one call to an external execution runner: either the captured
`(stdout, stderr)` pair, or the text of a raised exception. -/
abbrev RunnerResult := Except String (String × String)

/-- `(stdout, stderr)` pair produced by a successful runner call. -/
def runnerPair : RunnerResult → Option String × Option String
  | .ok (out, err) => (some out, some err)
  | .error msg => (none, some msg)

/-- Embedding of `Interpreter.execute_code` (lines 233-249).  The user's
answer at the confirmation prompt and the runner's outcome are inputs.  On a
raised exception the function returns `(none, some text)`; when the user
declines it returns `(none, none)`; when no mode flag is set no runner is
invoked and the initial `("", "")` pair is returned. -/
def execute_code (flags : ModeFlags) (executeFlag : Bool) (userAnswer : String)
    (res : RunnerResult) : Option String × Option String :=
  if executionGate executeFlag userAnswer then
    if flags.SCRIPT_MODE then runnerPair res
    else if flags.COMMAND_MODE then runnerPair res
    else if flags.CODE_MODE then runnerPair res
    else (some "", some "")
  else (none, none)

/-- Prompt built by `Interpreter.handle_code_mode` (line 209). -/
def codeModePrompt (lang task os_name : String) : String :=
  "Generate the code in " ++ lang ++ " language for this task '" ++ task ++
    " for Operating System: " ++ os_name ++ "'."

/-- The OS-to-language map of `Interpreter.handle_script_mode` (line 214):
`{'macos': 'applescript', 'linux': 'bash', 'windows': 'powershell'}` with
default `'python'`, keyed on `os_name.lower()`. -/
def language_map (os_name : String) : String :=
  if strLower os_name == "macos" then "applescript"
  else if strLower os_name == "linux" then "bash"
  else if strLower os_name == "windows" then "powershell"
  else "python"

/-- The `script_type` chain of `Interpreter.handle_script_mode` (line 217). -/
def scriptTypeOf (os_name : String) : String :=
  if strLower os_name == "macos" then "Apple script"
  else if strLower os_name == "linux" then "Bash Shell script"
  else if strLower os_name == "windows" then "Powershell script"
  else "script"

/-- Prompt built by `Interpreter.handle_script_mode` (line 218). -/
def scriptModePrompt (task os_name : String) : String :=
  "\nGenerate " ++ scriptTypeOf os_name ++
    " for this prompt and make this script easy to read and understand for this task '" ++
    task ++ " for Operating System is " ++ os_name ++ "'."

/-- Prompt built by `Interpreter.handle_command_mode` (line 222). -/
def commandModePrompt (task os_name : String) : String :=
  "Generate the single terminal command for this task '" ++ task ++
    " for Operating System is " ++ os_name ++ "'."

/-- The per-session mutable state touched by one loop iteration: the mode
flags, `INTERPRETER_LANGUAGE`, the in-memory `self.history` list, the
`SAVE_CODE`/`EXECUTE_CODE` flags and the file system (list of existing
files). -/
structure LoopState where
  flags : ModeFlags
  language : String
  history : List (String × String)
  save_code : Bool
  execute_flag : Bool
  fs : List String
deriving DecidableEq, Repr

/-- Embedding of `Interpreter.handle_mode` (lines 225-231) together with the
state effects of the three handlers: code mode appends `(task, prompt)` to
`self.history`, script mode overwrites `INTERPRETER_LANGUAGE` from the OS,
command mode changes nothing.  Returns `none` when no mode flag is set
(Python would return `None`). -/
def handle_mode (st : LoopState) (task os_name : String) :
    LoopState × Option String :=
  if st.flags.CODE_MODE then
    let prompt := codeModePrompt st.language task os_name
    ({ st with history := st.history ++ [(task, prompt)] }, some prompt)
  else if st.flags.SCRIPT_MODE then
    ({ st with language := language_map os_name }, some (scriptModePrompt task os_name))
  else if st.flags.COMMAND_MODE then
    (st, some (commandModePrompt task os_name))
  else (st, none)

/-- The files removed by `Interpreter._clean_responses` (line 58). -/
def files_to_remove : List String := ["graph.png", "chart.png", "table.md"]

/-- One `os.remove` on the modelled file system. -/
def removeFile (fs : List String) (f : String) : List String :=
  fs.filter (fun g => g != f)

/-- Embedding of `Interpreter._clean_responses` (lines 57-65): for each of the
three stale resource files, remove it when it exists.  Returns the new file
system and the list of files actually removed. -/
def _clean_responses (fs : List String) : List String × List String :=
  files_to_remove.foldl
    (fun acc f => if acc.1.contains f then (removeFile acc.1 f, acc.2 ++ [f]) else acc)
    (fs, [])

/-- The graph directive appended at lines 281-285 (python / javascript). -/
def graphDirective (lang : String) : Option String :=
  if lang == "python" then
    some "\nusing Python use Matplotlib save the graph in file called 'graph.png'"
  else if lang == "javascript" then
    some "\nusing JavaScript use Chart.js save the graph in file called 'graph.png'"
  else none

/-- The chart directive appended at lines 288-292 (python / javascript). -/
def chartDirective (lang : String) : Option String :=
  if lang == "python" then
    some "\nusing Python use Plotly save the chart in file called 'chart.png'"
  else if lang == "javascript" then
    some "\nusing JavaScript use Chart.js save the chart in file called 'chart.png'"
  else none

/-- The table directive appended at lines 295-299 (python / javascript). -/
def tableDirective (lang : String) : Option String :=
  if lang == "python" then
    some "\nusing Python use Pandas save the table in file called 'table.md'"
  else if lang == "javascript" then
    some "\nusing JavaScript use DataTables save the table in file called 'table.html'"
  else none

/-- `prompt += "\n" + directive` when the rule fires and the language has a
directive; otherwise the prompt is unchanged.  (The `"\n"` is folded into the
directive strings above, exactly as `prompt + "\n" + text` concatenates.) -/
def appendDirective (prompt : String) (d : Option String) : String :=
  match d with
  | some text => prompt ++ text
  | none => prompt

/-- Step one of the augmentation (lines 281-285): `if 'graph' in prompt.lower()`. -/
def augGraph (prompt lang : String) : String :=
  if strContains (strLower prompt) "graph" then appendDirective prompt (graphDirective lang)
  else prompt

/-- Step two (lines 288-292): `if 'chart' in prompt.lower() or 'plot' in
prompt.lower()`, checked on the prompt as already extended by `augGraph`. -/
def augChart (prompt lang : String) : String :=
  if strContains (strLower prompt) "chart" || strContains (strLower prompt) "plot" then
    appendDirective prompt (chartDirective lang)
  else prompt

/-- Step three (lines 295-299): `if 'table' in prompt.lower()`, checked on the
prompt as already extended by the two previous steps. -/
def augTable (prompt lang : String) : String :=
  if strContains (strLower prompt) "table" then appendDirective prompt (tableDirective lang)
  else prompt

/-- The full graph/chart/table augmentation of `interpreter_main`
(lines 281-299), applied in source order to the rendered prompt. -/
def augmentPrompt (prompt lang : String) : String :=
  augTable (augChart (augGraph prompt lang) lang) lang

/-- Whether the chart/plot rule fires (the condition at line 288, which reads
the prompt already extended by the graph rule). -/
def chartRuleFires (prompt lang : String) : Bool :=
  strContains (strLower (augGraph prompt lang)) "chart" ||
    strContains (strLower (augGraph prompt lang)) "plot"

/-- Whether the table rule fires (the condition at line 295, which reads the
prompt already extended by the graph and chart rules). -/
def tableRuleFires (prompt lang : String) : Bool :=
  strContains (strLower (augChart (augGraph prompt lang) lang)) "table"

/-- Index of the first occurrence of `pat` in `s`, character-based. -/
def findSub (pat : List Char) : List Char → Option Nat
  | [] => if pat.isEmpty then some 0 else none
  | c :: rest =>
    if startsWithChars pat (c :: rest) then some 0
    else (findSub pat rest).map (· + 1)

/-- Drop the first line of a character list (everything up to and including
the first newline). -/
def dropFirstLine (cs : List Char) : List Char :=
  (cs.dropWhile (fun c => c != '\n')).drop 1

/-- Modelled from the spec: `CodeInterpreter.extract_code` lives in
`libs/code_interpreter.py`, which is not part of the provided sources.
Per spec §4.1 it locates the first occurrence of the start delimiter, then
the next occurrence of the end delimiter after it, returns the substring
between them (dropping the first line inside the fence when
`skip_first_line` is set), and returns absent when either delimiter is
missing. -/
def extract_code (text start_sep end_sep : String) (skip_first_line : Bool) :
    Option String :=
  match findSub start_sep.data text.data with
  | none => none
  | some i =>
    let after := text.data.drop (i + start_sep.data.length)
    match findSub end_sep.data after with
    | none => none
    | some j =>
      let payload := after.take j
      some ⟨if skip_first_line then dropFirstLine payload else payload⟩

/-- Python truthiness of the extracted code: `if extracted_code:` is false
both for `None` and for the empty string. -/
def truthyCode : Option String → Bool
  | none => false
  | some s => !s.isEmpty

/-- Observable actions of one loop iteration, in program order. -/
inductive Event where
  | cleanRemove (file : String)
  | saveCode (path : String)
  | gate
  | execute
  | installPackage (pkg lang : String)
  | openFile (file : String)
  | persistHistory (task : String)
deriving DecidableEq, Repr

/-- Event discriminators. -/
def isExec : Event → Bool
  | .execute => true
  | _ => false

def isInst : Event → Bool
  | .installPackage _ _ => true
  | _ => false

def isSave : Event → Bool
  | .saveCode _ => true
  | _ => false

def isGateEv : Event → Bool
  | .gate => true
  | _ => false

/-- A confirmation-gate event or a runner invocation. -/
def isGateOrExec : Event → Bool
  | .gate => true
  | .execute => true
  | _ => false

/-- Per-turn inputs supplied by the external collaborators: the completion
transport's content string, the runner outcome, the user's answer at the
confirmation prompt, the package name `extract_package_name` would return,
and the files the executed code created. -/
structure Env where
  generated_output : String
  runnerResult : RunnerResult
  userAnswer : String
  packageName : Option String
  filesCreated : List String

/-- Loop-constant parameters of `interpreter_main`. -/
structure Params where
  os_name : String
  start_sep : String
  end_sep : String
  skip_first_line : Bool
  current_time : String

/-- Save path chosen at lines 316-322: only javascript and python code is
saved, and only when `SAVE_CODE` is set. -/
def savePath (lang : String) (save_code : Bool) (current_time : String) :
    Option String :=
  if lang == "javascript" && save_code then
    some ("output/code_generated_" ++ current_time ++ ".js")
  else if lang == "python" && save_code then
    some ("output/code_generated_" ++ current_time ++ ".py")
  else none

/-- Trace of the `if extracted_code:` branch (lines 314-353) followed by the
history persistence at line 355, in source order: optional save, the
confirmation gate inside `execute_code`, the runner invocation when the gate
passes, the optional package install, the resource-file openings, the
external history append. -/
def mkTraceFull (removed : List String) (save : Option String) (gatePassed : Bool)
    (inst : Option (String × String)) (opens : List String) (task : String) :
    List Event :=
  removed.map Event.cleanRemove ++
    (match save with | some path => [Event.saveCode path] | none => []) ++
    [Event.gate] ++
    (if gatePassed then [Event.execute] else []) ++
    (match inst with | some pl => [Event.installPackage pl.1 pl.2] | none => []) ++
    opens.map Event.openFile ++
    [Event.persistHistory task]

/-- Trace of an iteration whose extracted code is absent or empty: only the
stale-file cleanup and the history persistence happen. -/
def mkTraceSkip (removed : List String) (task : String) : List Event :=
  removed.map Event.cleanRemove ++ [Event.persistHistory task]

/-- One iteration of the `while True:` loop of `interpreter_main`
(lines 269-355), for a task that is not `exit`/`quit`: build the prompt via
`handle_mode` (which updates history/language), clean stale resource files,
augment the prompt, call the completion transport (its content is
`env.generated_output`), extract the code, optionally save it, run
`execute_code`, classify the error and install a package, open the resource
files that now exist, and persist the turn externally.  Returns the new
state, the event trace and the `(code_output, code_error)` pair. -/
def runIteration (p : Params) (st : LoopState) (task : String) (env : Env) :
    LoopState × List Event × (Option String × Option String) :=
  match handle_mode st task p.os_name with
  | (st1, none) => (st1, [], (none, none))
  | (st1, some _prompt) =>
    let cleaned := _clean_responses st1.fs
    let extracted :=
      extract_code env.generated_output p.start_sep p.end_sep p.skip_first_line
    if truthyCode extracted then
      let save := savePath st1.language st1.save_code p.current_time
      let gatePassed := executionGate st1.execute_flag env.userAnswer
      let result := execute_code st1.flags st1.execute_flag env.userAnswer env.runnerResult
      let code_error := result.2
      let inst :=
        if missingDependency code_error then
          match env.packageName with
          | some pkg => some (pkg, st1.language)
          | none => none
        else none
      let fs2 := cleaned.1 ++ (if gatePassed then env.filesCreated else [])
      let opens := ["graph.png", "chart.png", "table.md"].filter (fun f => fs2.contains f)
      ({ st1 with fs := fs2 },
        mkTraceFull cleaned.2 save gatePassed inst opens task,
        result)
    else
      ({ st1 with fs := cleaned.1 }, mkTraceSkip cleaned.2 task, (none, none))

/-- The session loop: process tasks in order, stopping at the first
`exit`/`quit` (compared after `.lower()`, line 273). -/
def runSession (p : Params) : LoopState → List (String × Env) → LoopState
  | st, [] => st
  | st, (task, env) :: rest =>
    if strLower task == "exit" || strLower task == "quit" then st
    else runSession p (runIteration p st task env).1 rest

/-- Per-model generation configuration as read from the config file; `none`
models an absent key (`config_values.get` falling back to the default). -/
structure ConfigVals where
  temperature : Option ℚ
  max_tokens : Option Nat
deriving DecidableEq, Repr

/-- The parameters of one call to the `completion` transport. -/
structure CompletionCall where
  model : String
  temperature : ℚ
  max_tokens : Nat
deriving DecidableEq, Repr

/-- The model-identifier rewrite at lines 186-187: prefix `huggingface/`
unless the identifier already contains `huggingface/` or `gpt`. -/
def resolveModel (model : String) : String :=
  if !strContains model "huggingface/" && !strContains model "gpt" then
    "huggingface/" ++ model
  else model

/-- Embedding of `Interpreter.generate_text` (lines 172-201) restricted to the
completion call it performs: resolve temperature/max_tokens from the config
(defaults 0.1 and 1024), rewrite the model identifier, then either call the
gpt-3.5-turbo backend with hardcoded `temperature=0.1, max_tokens=2048` or
the Hugging Face backend with the resolved parameters. -/
def generate_text (model : String) (config : Option ConfigVals) : CompletionCall :=
  let temperature : ℚ :=
    match config with
    | some cv => cv.temperature.getD (1 / 10)
    | none => 1 / 10
  let max_tokens : Nat :=
    match config with
    | some cv => cv.max_tokens.getD 1024
    | none => 1024
  let model := resolveModel model
  if strContains model "gpt-3.5-turbo" then
    { model := model, temperature := 1 / 10, max_tokens := 2048 }
  else
    { model := model, temperature := temperature, max_tokens := max_tokens }

/-- `true` when exactly one of the three mode flags is set. -/
def exactlyOneMode (fl : ModeFlags) : Bool :=
  ((cond fl.CODE_MODE 1 0) + (cond fl.SCRIPT_MODE 1 0) + (cond fl.COMMAND_MODE 1 0)) == 1

/-- Whether the pair returned by `execute_code` has a non-empty first and a
non-empty second component. -/
def bothNonEmpty (pair : Option String × Option String) : Bool :=
  (match pair.1 with | some s => !s.isEmpty | none => false) &&
    (match pair.2 with | some s => !s.isEmpty | none => false)

/-- `occursBefore p q l` is true when some element satisfying `p` occurs
strictly before some element satisfying `q` in `l`. -/
def occursBefore (p q : α → Bool) : List α → Bool
  | [] => false
  | x :: rest => (p x && rest.any q) || occursBefore p q rest

lemma occursBefore_append (p q : α → Bool) (a b : List α) :
    occursBefore p q (a ++ b) =
      (occursBefore p q a || (a.any p && b.any q) || occursBefore p q b) := by
  induction a with
  | nil => simp [occursBefore]
  | cons x xs ih =>
    simp only [List.cons_append, occursBefore, List.append_eq, ih, List.any_append,
      List.any_cons]
    cases p x <;> cases q x <;> cases xs.any q <;> cases b.any q <;> cases xs.any p <;>
      cases occursBefore p q xs <;> cases occursBefore p q b <;> rfl

lemma handle_mode_fields (st : LoopState) (task os_name : String) :
    (handle_mode st task os_name).1.flags = st.flags ∧
      (handle_mode st task os_name).1.save_code = st.save_code ∧
      (handle_mode st task os_name).1.execute_flag = st.execute_flag ∧
      (handle_mode st task os_name).1.fs = st.fs := by
  unfold handle_mode
  split
  · exact ⟨rfl, rfl, rfl, rfl⟩
  · split
    · exact ⟨rfl, rfl, rfl, rfl⟩
    · split
      · exact ⟨rfl, rfl, rfl, rfl⟩
      · exact ⟨rfl, rfl, rfl, rfl⟩

lemma runIteration_state (p : Params) (st : LoopState) (task : String) (env : Env) :
    ∃ fs', (runIteration p st task env).1 =
      { (handle_mode st task p.os_name).1 with fs := fs' } := by
  unfold runIteration
  rcases hh : handle_mode st task p.os_name with ⟨st1, po⟩
  cases po with
  | none => exact ⟨st1.fs, rfl⟩
  | some prompt =>
    simp only
    split
    · exact ⟨_, rfl⟩
    · exact ⟨_, rfl⟩

lemma runIteration_flags (p : Params) (st : LoopState) (task : String) (env : Env) :
    (runIteration p st task env).1.flags = st.flags := by
  obtain ⟨fs', hfs⟩ := runIteration_state p st task env
  rw [hfs]
  exact (handle_mode_fields st task p.os_name).1

/-- Claim C3: the package-recovery path is taken exactly when the error
string is present and contains one of the four fixed case-sensitive
substrings; the two spec examples evaluate as stated, and an absent error is
never classified as a missing dependency. -/
theorem missing_dependency_classification :
    (∀ e : String, missingDependency (some e) = true ↔
      (strContains e "ModuleNotFound" = true ∨ strContains e "ImportError" = true ∨
        strContains e "No module named" = true ∨ strContains e "Cannot find module" = true)) ∧
    missingDependency none = false ∧
    missingDependency (some "ModuleNotFoundError: No module named 'requests'") = true ∧
    missingDependency (some "SyntaxError: invalid syntax") = false ∧
    missingDependency (some "no module named requests") = false := by
  refine ⟨fun e => ?_, rfl, by decide, by decide, by decide⟩
  simp [missingDependency, error_messages]

/-- Claim C10: with none of the three stale resource files present, cleanup
removes nothing and leaves the file system unchanged, and a second run does
the same. -/
theorem clean_responses_idempotent (fs : List String)
    (h : fs.contains "graph.png" = false) (h2 : fs.contains "chart.png" = false)
    (h3 : fs.contains "table.md" = false) :
    _clean_responses fs = (fs, []) ∧
      _clean_responses (_clean_responses fs).1 = (fs, []) := by
  have h' : ¬ "graph.png" ∈ fs := by simpa using h
  have h2' : ¬ "chart.png" ∈ fs := by simpa using h2
  have h3' : ¬ "table.md" ∈ fs := by simpa using h3
  have hone : _clean_responses fs = (fs, []) := by
    simp [_clean_responses, files_to_remove, h', h2', h3']
  exact ⟨hone, by rw [hone]; exact hone⟩

/-- Witness for `clean_responses_idempotent` at a concrete file system. -/
theorem clean_responses_idempotent_witness :
    (["notes.txt"].contains "graph.png" = false ∧
      ["notes.txt"].contains "chart.png" = false ∧
      ["notes.txt"].contains "table.md" = false) ∧
      (_clean_responses ["notes.txt"] = (["notes.txt"], []) ∧
        _clean_responses (_clean_responses ["notes.txt"]).1 = (["notes.txt"], [])) :=
  ⟨by decide, clean_responses_idempotent ["notes.txt"] (by decide) (by decide) (by decide)⟩

/-- Claim C9: for every value of the mode argument, exactly one mode flag is
set after `initialize_mode`; an unrecognized value yields code mode; and no
loop iteration changes the flags. -/
theorem mode_initialization_exclusive (mode : String) (p : Params) (st : LoopState)
    (task : String) (env : Env) :
    exactlyOneMode (initialize_mode mode) = true ∧
    (mode ≠ "code" → mode ≠ "script" → mode ≠ "command" →
      initialize_mode mode = ⟨true, false, false⟩) ∧
    (runIteration p st task env).1.flags = st.flags := by
  refine ⟨?_, ?_, runIteration_flags p st task env⟩
  · by_cases h1 : mode = "code"
    · subst h1; decide
    · by_cases h2 : mode = "script"
      · subst h2; decide
      · by_cases h3 : mode = "command"
        · subst h3; decide
        · have e1 : (mode == "code") = false := by simp [h1]
          have e2 : (mode == "script") = false := by simp [h2]
          have e3 : (mode == "command") = false := by simp [h3]
          simp [initialize_mode, e1, e2, e3, exactlyOneMode]
  · intro h1 h2 h3
    have e1 : (mode == "code") = false := by simp [h1]
    have e2 : (mode == "script") = false := by simp [h2]
    have e3 : (mode == "command") = false := by simp [h3]
    simp [initialize_mode, e1, e2, e3]

lemma toLower_eq_y {c : Char} (h : c.toLower = 'y') : c = 'y' ∨ c = 'Y' := by
  have hx : c = Char.ofNat c.toNat := (Char.ofNat_toNat c).symm
  simp only [Char.toLower] at h
  split at h
  case isTrue hn =>
    obtain ⟨h1, h2⟩ := hn
    generalize hg : c.toNat = n at h h1 h2 hx
    interval_cases n <;> first | (rw [hx]; decide) | exact absurd h (by decide)
  case isFalse => exact Or.inl h

lemma strLower_eq_y {s : String} (h : strLower s = "y") : s = "y" ∨ s = "Y" := by
  obtain ⟨cs⟩ := s
  have hd : cs.map Char.toLower = ['y'] := by
    have := congrArg String.data h
    simpa [strLower] using this
  cases cs with
  | nil => simp at hd
  | cons c rest =>
    simp only [List.map_cons, List.cons.injEq] at hd
    obtain ⟨hc, hrest⟩ := hd
    have hrest' : rest = [] := by
      cases rest with
      | nil => rfl
      | cons _ _ => simp at hrest
    subst hrest'
    rcases toLower_eq_y hc with h' | h' <;> subst h'
    · exact Or.inl rfl
    · exact Or.inr rfl

/-- Claim C2: `execute_code` never propagates a runner exception: when a mode
flag is set and the gate passes, a raised exception comes back as the stderr
component with stdout absent; and with auto-execute unset, any answer other
than `y`/`Y` yields `(absent, absent)` whatever the runner would have done.
Two concrete instances are included. -/
theorem execute_code_never_raises (flags : ModeFlags) (executeFlag : Bool)
    (ans e : String) (res : RunnerResult) :
    ((flags.SCRIPT_MODE || flags.COMMAND_MODE || flags.CODE_MODE) = true →
      executionGate executeFlag ans = true →
      execute_code flags executeFlag ans (.error e) = (none, some e)) ∧
    (ans ≠ "y" → ans ≠ "Y" →
      execute_code flags false ans res = (none, none)) ∧
    execute_code ⟨true, false, false⟩ true "" (.error "boom") = (none, some "boom") ∧
    execute_code ⟨true, false, false⟩ false "no" (.error "boom") = (none, none) := by
  refine ⟨fun hf hg => ?_, fun hy hY => ?_, by decide, by decide⟩
  · unfold execute_code
    rw [hg]
    simp only [if_true]
    rcases flags with ⟨c, sc, cm⟩
    simp only [Bool.or_eq_true] at hf
    cases sc <;> cases cm <;> cases c <;> simp_all [runnerPair]
  · have hgate : executionGate false ans = false := by
      unfold executionGate
      simp only [Bool.false_eq_true, if_false]
      by_cases hly : strLower ans = "y"
      · rcases strLower_eq_y hly with h' | h' <;> simp_all
      · simp [hly]
    simp [execute_code, hgate]

/-- Witness for `execute_code_never_raises` at concrete inputs. -/
theorem execute_code_never_raises_witness :
    ((ModeFlags.mk true false false).SCRIPT_MODE ||
        (ModeFlags.mk true false false).COMMAND_MODE ||
        (ModeFlags.mk true false false).CODE_MODE) = true ∧
      executionGate true "" = true ∧ ("n" : String) ≠ "y" ∧ ("n" : String) ≠ "Y" ∧
      (execute_code ⟨true, false, false⟩ true "" (.error "oops") = (none, some "oops") ∧
        execute_code ⟨true, false, false⟩ false "n" (.ok ("a", "b")) = (none, none)) :=
  ⟨by decide, by decide, by decide, by decide,
    ((execute_code_never_raises ⟨true, false, false⟩ true "" "oops"
        (.ok ("a", "b"))).1 (by decide) (by decide)),
    ((execute_code_never_raises ⟨true, false, false⟩ false "n" "oops"
        (.ok ("a", "b"))).2.1 (by decide) (by decide))⟩

/-- Counterexample to claim C7: when the runner reports both a non-empty
stdout and a non-empty stderr, `execute_code` returns both, so the returned
pair can have both components non-empty. -/
theorem execute_code_both_streams :
    bothNonEmpty (execute_code ⟨true, false, false⟩ true "" (.ok ("hello", "warning"))) =
      true := by decide

/-- Claim C7 as amended: the pair returned by `execute_code` has both
components non-empty only when the runner itself returned both non-empty;
the decline path and the exception path never do. -/
theorem execute_code_both_nonempty_from_runner (flags : ModeFlags)
    (executeFlag : Bool) (ans : String) (res : RunnerResult)
    (h : bothNonEmpty (execute_code flags executeFlag ans res) = true) :
    ∃ o e, res = .ok (o, e) ∧ o.isEmpty = false ∧ e.isEmpty = false := by
  have key : ∀ r : RunnerResult, bothNonEmpty (runnerPair r) = true →
      ∃ o e, r = .ok (o, e) ∧ o.isEmpty = false ∧ e.isEmpty = false := by
    intro r hr
    cases r with
    | ok pr =>
      obtain ⟨o, e⟩ := pr
      simp only [runnerPair, bothNonEmpty, Bool.and_eq_true, Bool.not_eq_true'] at hr
      exact ⟨o, e, rfl, hr.1, hr.2⟩
    | error m => simp [runnerPair, bothNonEmpty] at hr
  unfold execute_code at h
  split at h
  · by_cases hs : flags.SCRIPT_MODE = true
    · rw [if_pos hs] at h; exact key res h
    · rw [if_neg hs] at h
      by_cases hc : flags.COMMAND_MODE = true
      · rw [if_pos hc] at h; exact key res h
      · rw [if_neg hc] at h
        by_cases hco : flags.CODE_MODE = true
        · rw [if_pos hco] at h; exact key res h
        · rw [if_neg hco] at h; exact absurd h (by decide)
  · exact absurd h (by decide)

/-- Witness for `execute_code_both_nonempty_from_runner`. -/
theorem execute_code_both_nonempty_from_runner_witness :
    bothNonEmpty (execute_code ⟨true, false, false⟩ true "" (.ok ("a", "b"))) = true ∧
      ∃ o e, ((Except.ok ("a", "b") : RunnerResult)) = .ok (o, e) ∧
        o.isEmpty = false ∧ e.isEmpty = false :=
  ⟨by decide,
    execute_code_both_nonempty_from_runner ⟨true, false, false⟩ true "" (.ok ("a", "b"))
      (by decide)⟩

lemma any_map_false {β : Type} (f : β → Event) (P : Event → Bool) (l : List β)
    (hf : ∀ x, P (f x) = false) : (l.map f).any P = false := by
  induction l with
  | nil => rfl
  | cons a l ih => simp [List.map_cons, List.any_cons, hf a, ih]

lemma countP_map_zero {β : Type} (f : β → Event) (P : Event → Bool) (l : List β)
    (hf : ∀ x, P (f x) = false) : (l.map f).countP P = 0 := by
  induction l with
  | nil => rfl
  | cons a l ih => simp [List.map_cons, List.countP_cons, hf a, ih]

lemma occursBefore_of_no_q (p q : α → Bool) (l : List α) (h : l.any q = false) :
    occursBefore p q l = false := by
  induction l with
  | nil => rfl
  | cons x xs ih =>
    simp only [List.any_cons, Bool.or_eq_false_iff] at h
    simp only [occursBefore, ih h.2, h.2, Bool.or_false, Bool.and_false]

lemma countP_exec_full (r : List String) (s : Option String) (g : Bool)
    (i : Option (String × String)) (o : List String) (t : String) :
    (mkTraceFull r s g i o t).countP isExec = (if g then 1 else 0) := by
  have hr := countP_map_zero Event.cleanRemove isExec r (fun _ => rfl)
  have ho := countP_map_zero Event.openFile isExec o (fun _ => rfl)
  cases s <;> cases g <;> cases i <;>
    simp [mkTraceFull, List.countP_append, hr, ho, List.countP_cons, List.countP_nil, isExec]

lemma countP_inst_full (r : List String) (s : Option String) (g : Bool)
    (i : Option (String × String)) (o : List String) (t : String) :
    (mkTraceFull r s g i o t).countP isInst = (match i with | some _ => 1 | none => 0) := by
  have hr := countP_map_zero Event.cleanRemove isInst r (fun _ => rfl)
  have ho := countP_map_zero Event.openFile isInst o (fun _ => rfl)
  cases s <;> cases g <;> cases i <;>
    simp [mkTraceFull, List.countP_append, hr, ho, List.countP_cons, List.countP_nil, isInst]

lemma no_exec_after_inst_full (r : List String) (s : Option String) (g : Bool)
    (i : Option (String × String)) (o : List String) (t : String) :
    occursBefore isInst isExec (mkTraceFull r s g i o t) = false := by
  have hr := any_map_false Event.cleanRemove isExec r (fun _ => rfl)
  have hri := any_map_false Event.cleanRemove isInst r (fun _ => rfl)
  have ho := any_map_false Event.openFile isExec o (fun _ => rfl)
  have hoi := any_map_false Event.openFile isInst o (fun _ => rfl)
  have hrq := occursBefore_of_no_q isInst isExec _ hr
  have hoq := occursBefore_of_no_q isInst isExec _ ho
  cases s <;> cases g <;> cases i <;>
    simp [mkTraceFull, occursBefore_append, occursBefore, List.any_append, hr, hri, ho, hoi,
      hrq, hoq, List.any_cons, isInst, isExec, List.any_map]

lemma trace_skip_facts (r : List String) (t : String) :
    (mkTraceSkip r t).countP isExec = 0 ∧ (mkTraceSkip r t).countP isInst = 0 ∧
      occursBefore isInst isExec (mkTraceSkip r t) = false ∧
      (mkTraceSkip r t).any isSave = false ∧
      occursBefore isGateOrExec isSave (mkTraceSkip r t) = false := by
  have h1 := countP_map_zero Event.cleanRemove isExec r (fun _ => rfl)
  have h2 := countP_map_zero Event.cleanRemove isInst r (fun _ => rfl)
  have h3 := any_map_false Event.cleanRemove isExec r (fun _ => rfl)
  have h4 := any_map_false Event.cleanRemove isInst r (fun _ => rfl)
  have h5 := any_map_false Event.cleanRemove isSave r (fun _ => rfl)
  refine ⟨?_, ?_, ?_, ?_, ?_⟩ <;>
    simp [mkTraceSkip, List.countP_append, List.any_append, h1, h2, h3, h4, h5,
      List.countP_cons, List.countP_nil, isExec, isInst, isSave]
  · exact occursBefore_of_no_q _ _ _ (by simp [List.any_append, h3, List.any_cons, isExec])
  · exact occursBefore_of_no_q _ _ _ (by simp [List.any_append, h5, List.any_cons, isSave])

/-- Claim C4: in every loop iteration the runner is invoked at most once, the
package installer runs at most once, and no runner invocation ever follows a
package install within the same iteration. -/
theorem execution_at_most_once (p : Params) (st : LoopState) (task : String) (env : Env) :
    (runIteration p st task env).2.1.countP isExec ≤ 1 ∧
    (runIteration p st task env).2.1.countP isInst ≤ 1 ∧
    occursBefore isInst isExec (runIteration p st task env).2.1 = false := by
  unfold runIteration
  rcases hh : handle_mode st task p.os_name with ⟨st1, po⟩
  cases po with
  | none => exact ⟨by simp, by simp, rfl⟩
  | some prompt =>
    simp only
    split
    · refine ⟨?_, ?_, ?_⟩
      · rw [countP_exec_full]
        split <;> simp
      · rw [countP_inst_full]
        split <;> simp
      · exact no_exec_after_inst_full _ _ _ _ _ _
    · obtain ⟨a, b, c, _, _⟩ := trace_skip_facts (_clean_responses st1.fs).2 task
      exact ⟨by simp [a], by simp [b], c⟩

lemma any_save_full (r : List String) (s : Option String) (g : Bool)
    (i : Option (String × String)) (o : List String) (t : String) :
    (mkTraceFull r s g i o t).any isSave = s.isSome := by
  have hr := any_map_false Event.cleanRemove isSave r (fun _ => rfl)
  have ho := any_map_false Event.openFile isSave o (fun _ => rfl)
  cases s <;> cases g <;> cases i <;>
    simp [mkTraceFull, List.any_append, hr, ho, List.any_cons, isSave]

lemma no_gate_before_save_full (r : List String) (s : Option String) (g : Bool)
    (i : Option (String × String)) (o : List String) (t : String) :
    occursBefore isGateOrExec isSave (mkTraceFull r s g i o t) = false := by
  have hr := any_map_false Event.cleanRemove isSave r (fun _ => rfl)
  have ho := any_map_false Event.openFile isSave o (fun _ => rfl)
  have hrg := any_map_false Event.cleanRemove isGateOrExec r
    (fun _ => rfl)
  have hrq := occursBefore_of_no_q isGateOrExec isSave _ hr
  have hoq := occursBefore_of_no_q isGateOrExec isSave _ ho
  cases s <;> cases g <;> cases i <;>
    simp [mkTraceFull, occursBefore_append, occursBefore, List.any_append, hr, ho, hrg,
      hrq, hoq, List.any_cons, isSave, isGateOrExec]

lemma savePath_isSome (lang : String) (sc : Bool) (t : String) :
    (savePath lang sc t).isSome = ((lang == "javascript" || lang == "python") && sc) := by
  unfold savePath
  cases hj : lang == "javascript" <;> cases hp : lang == "python" <;> cases sc <;> simp

lemma handle_mode_none {st : LoopState} {task os_name : String} {st1 : LoopState}
    (hh : handle_mode st task os_name = (st1, none)) :
    st.flags.CODE_MODE = false ∧ st.flags.SCRIPT_MODE = false ∧
      st.flags.COMMAND_MODE = false := by
  unfold handle_mode at hh
  split at hh
  · simp at hh
  · split at hh
    · simp at hh
    · split at hh
      · simp at hh
      · simp_all [Bool.not_eq_true]

/-- Counterexample inputs for claim C8: a code-mode session whose language is
`bash` (selected with `--lang bash`), with the save flag and auto-execute
set, and a model reply holding a fenced code block. -/
def sampleParams : Params := ⟨"linux", "```", "```", false, "12:00:00"⟩

def bashCodeState : LoopState := ⟨initialize_mode "code", "bash", [], true, true, []⟩

def sampleEnv : Env := ⟨"```\nls -la\n```", .ok ("ok", ""), "", none, []⟩

/-- Counterexample to claim C8: with the save flag set, code extracted and
the language `bash`, the iteration executes the code without ever saving it
(only javascript and python code is persisted at lines 316-322). -/
theorem save_skipped_for_bash :
    bashCodeState.save_code = true ∧
      (runIteration sampleParams bashCodeState "x" sampleEnv).2.1 =
        [Event.gate, Event.execute, Event.persistHistory "x"] ∧
      (runIteration sampleParams bashCodeState "x" sampleEnv).2.1.any isSave = false := by
  refine ⟨rfl, by decide, by decide⟩

/-- Claim C8 as amended: whenever a mode flag is set, a save event occurs in
an iteration exactly when the active language (after `handle_mode`) is
javascript or python, the save flag is set and code was extracted; and no
confirmation gate or runner invocation ever precedes the save event. -/
theorem save_precedes_execution (p : Params) (st : LoopState) (task : String) (env : Env)
    (hmode : (st.flags.CODE_MODE || st.flags.SCRIPT_MODE || st.flags.COMMAND_MODE) = true) :
    occursBefore isGateOrExec isSave
        (runIteration p st task env).2.1 = false ∧
      (runIteration p st task env).2.1.any isSave =
        ((((handle_mode st task p.os_name).1.language == "javascript") ||
            ((handle_mode st task p.os_name).1.language == "python")) && st.save_code &&
          truthyCode (extract_code env.generated_output p.start_sep p.end_sep
            p.skip_first_line)) := by
  unfold runIteration
  rcases hh : handle_mode st task p.os_name with ⟨st1, po⟩
  cases po with
  | none =>
    obtain ⟨h1, h2, h3⟩ := handle_mode_none hh
    rw [h1, h2, h3] at hmode
    simp at hmode
  | some prompt =>
    have hsc : st1.save_code = st.save_code := by
      have := (handle_mode_fields st task p.os_name).2.1
      rw [hh] at this
      exact this
    simp only
    split
    · rename_i ht
      refine ⟨no_gate_before_save_full _ _ _ _ _ _, ?_⟩
      rw [any_save_full, savePath_isSome, hsc, ht, Bool.and_true]
    · rename_i ht
      obtain ⟨_, _, _, h4, h5⟩ := trace_skip_facts (_clean_responses st1.fs).2 task
      refine ⟨h5, ?_⟩
      rw [h4]
      rw [Bool.not_eq_true] at ht
      rw [ht, Bool.and_false]

/-- Witness for `save_precedes_execution` at a concrete python code-mode
session whose save succeeds. -/
theorem save_precedes_execution_witness :
    ((⟨initialize_mode "code", "python", [], true, true, []⟩ : LoopState).flags.CODE_MODE ||
        (⟨initialize_mode "code", "python", [], true, true, []⟩ : LoopState).flags.SCRIPT_MODE ||
        (⟨initialize_mode "code", "python", [], true, true, []⟩ : LoopState).flags.COMMAND_MODE) =
          true ∧
      (occursBefore isGateOrExec isSave
          (runIteration sampleParams ⟨initialize_mode "code", "python", [], true, true, []⟩
            "x" sampleEnv).2.1 = false ∧
        (runIteration sampleParams ⟨initialize_mode "code", "python", [], true, true, []⟩
            "x" sampleEnv).2.1.any isSave =
          ((((handle_mode ⟨initialize_mode "code", "python", [], true, true, []⟩ "x"
                sampleParams.os_name).1.language == "javascript") ||
              ((handle_mode ⟨initialize_mode "code", "python", [], true, true, []⟩ "x"
                sampleParams.os_name).1.language == "python")) &&
            (⟨initialize_mode "code", "python", [], true, true, []⟩ : LoopState).save_code &&
            truthyCode (extract_code sampleEnv.generated_output sampleParams.start_sep
              sampleParams.end_sep sampleParams.skip_first_line))) :=
  ⟨by decide,
    save_precedes_execution sampleParams ⟨initialize_mode "code", "python", [], true, true, []⟩
      "x" sampleEnv (by decide)⟩

lemma handle_mode_code {st : LoopState} (task os_name : String)
    (h : st.flags.CODE_MODE = true) :
    (handle_mode st task os_name).1 =
      { st with history := st.history ++ [(task, codeModePrompt st.language task os_name)] } := by
  unfold handle_mode
  rw [if_pos h]

lemma handle_mode_not_code {st : LoopState} (task os_name : String)
    (h : st.flags.CODE_MODE = false) :
    (handle_mode st task os_name).1.history = st.history := by
  unfold handle_mode
  rw [if_neg (by simp [h])]
  split
  · rfl
  · split
    · rfl
    · rfl

lemma runIteration_history_code {p : Params} {st : LoopState} (task : String) (env : Env)
    (h : st.flags.CODE_MODE = true) :
    (runIteration p st task env).1.history =
        st.history ++ [(task, codeModePrompt st.language task p.os_name)] ∧
      (runIteration p st task env).1.language = st.language := by
  obtain ⟨fs', hfs⟩ := runIteration_state p st task env
  rw [hfs, handle_mode_code task p.os_name h]
  exact ⟨rfl, rfl⟩

lemma runIteration_history_not_code {p : Params} {st : LoopState} (task : String)
    (env : Env) (h : st.flags.CODE_MODE = false) :
    (runIteration p st task env).1.history = st.history := by
  obtain ⟨fs', hfs⟩ := runIteration_state p st task env
  rw [hfs]
  exact handle_mode_not_code task p.os_name h

/-- Claim C1 as amended: with no task equal to `exit`/`quit`, a code-mode
session appends exactly one history entry per submitted task, in submission
order, each entry pairing the task with its rendered prompt; in script and
command mode the in-memory history is never touched. -/
theorem history_append_order (p : Params) (st : LoopState) (entries : List (String × Env))
    (hexit : ∀ pr ∈ entries, strLower pr.1 ≠ "exit" ∧ strLower pr.1 ≠ "quit") :
    (st.flags.CODE_MODE = true →
      (runSession p st entries).history =
        st.history ++
          entries.map (fun pr => (pr.1, codeModePrompt st.language pr.1 p.os_name))) ∧
    (st.flags.CODE_MODE = false → (runSession p st entries).history = st.history) := by
  induction entries generalizing st with
  | nil => simp [runSession]
  | cons entry rest ih =>
    obtain ⟨task, env⟩ := entry
    have hne := hexit (task, env) (List.mem_cons_self _ _)
    have hrest : ∀ pr ∈ rest, strLower pr.1 ≠ "exit" ∧ strLower pr.1 ≠ "quit" :=
      fun pr hpr => hexit pr (List.mem_cons_of_mem _ hpr)
    have hcond : ¬ ((strLower task == "exit" || strLower task == "quit") = true) := by
      simp only [Bool.or_eq_true, beq_iff_eq]
      rintro (h | h)
      · exact hne.1 h
      · exact hne.2 h
    have hstep : runSession p st ((task, env) :: rest) =
        runSession p (runIteration p st task env).1 rest := by
      simp only [runSession]
      rw [if_neg hcond]
    constructor
    · intro hc
      have hfl := runIteration_flags p st task env
      obtain ⟨hhist, hlang⟩ := runIteration_history_code task env hc
      have ihc := (ih (runIteration p st task env).1 hrest).1 (by rw [hfl]; exact hc)
      rw [hstep, ihc, hhist, hlang, List.append_assoc]
      simp [List.map_cons]
    · intro hc
      have hfl := runIteration_flags p st task env
      have hhist := runIteration_history_not_code (p := p) task env hc
      have ihc := (ih (runIteration p st task env).1 hrest).2 (by rw [hfl]; exact hc)
      rw [hstep, ihc, hhist]

/-- Witness for `history_append_order`: a two-task code-mode session. -/
theorem history_append_order_witness :
    (∀ pr ∈ ([("a", sampleEnv), ("b", sampleEnv)] : List (String × Env)),
        strLower pr.1 ≠ "exit" ∧ strLower pr.1 ≠ "quit") ∧
      (((⟨initialize_mode "code", "python", [], false, false, []⟩ : LoopState).flags.CODE_MODE =
          true →
        (runSession sampleParams ⟨initialize_mode "code", "python", [], false, false, []⟩
            [("a", sampleEnv), ("b", sampleEnv)]).history =
          ([] : List (String × String)) ++
            [("a", sampleEnv), ("b", sampleEnv)].map
              (fun pr => (pr.1, codeModePrompt "python" pr.1 sampleParams.os_name))) ∧
      ((⟨initialize_mode "code", "python", [], false, false, []⟩ : LoopState).flags.CODE_MODE =
          false →
        (runSession sampleParams ⟨initialize_mode "code", "python", [], false, false, []⟩
            [("a", sampleEnv), ("b", sampleEnv)]).history = ([] : List (String × String)))) :=
  ⟨by decide,
    history_append_order sampleParams ⟨initialize_mode "code", "python", [], false, false, []⟩
      [("a", sampleEnv), ("b", sampleEnv)] (by decide)⟩

/-- Counterexample to claim C1: a script-mode session processes one task
(not `exit`/`quit`) yet the in-memory history stays empty — the history
append at line 210 happens only in `handle_code_mode`, so the History-length
invariant fails outside code mode. -/
theorem history_empty_in_script_mode :
    (runSession ⟨"linux", "```", "```", false, "00:00:00"⟩
        ⟨initialize_mode "script", "python", [], false, false, []⟩
        [("list the files", ⟨"no code here", .ok ("", ""), "n", none, []⟩)]).history =
      ([] : List (String × String)) := by decide

/-- The temperature the session Config resolves to (default 0.1). -/
def configTemperature (cfg : Option ConfigVals) : ℚ :=
  match cfg with
  | some cv => cv.temperature.getD (1 / 10)
  | none => 1 / 10

/-- The max_tokens the session Config resolves to (default 1024). -/
def configMaxTokens (cfg : Option ConfigVals) : Nat :=
  match cfg with
  | some cv => cv.max_tokens.getD 1024
  | none => 1024

/-- Counterexample to claim C5: for the model `gpt-3.5-turbo` the completion
transport is invoked with the hardcoded `max_tokens=2048` (line 198), not
with the Config value (which would resolve to the default 1024 here, or to
512 when the Config says 512). -/
theorem gpt_call_ignores_config :
    (generate_text "gpt-3.5-turbo" none).max_tokens = 2048 ∧
      (generate_text "gpt-3.5-turbo" (some ⟨none, some 512⟩)).max_tokens = 2048 ∧
      configMaxTokens none = 1024 ∧
      configMaxTokens (some ⟨none, some 512⟩) = 512 := by
  refine ⟨by decide, by decide, rfl, rfl⟩

/-- Claim C5 as amended: when the (possibly `huggingface/`-prefixed) model
identifier contains `gpt-3.5-turbo`, the completion transport is invoked
with hardcoded temperature 0.1 and max_tokens 2048; for every other model it
is invoked with the Config temperature and max_tokens, falling back to the
defaults 0.1 and 1024 when the keys are absent.  A concrete Hugging Face
instance is included. -/
theorem generate_text_params (model : String) (cfg : Option ConfigVals) :
    (strContains (resolveModel model) "gpt-3.5-turbo" = true →
      generate_text model cfg =
        { model := resolveModel model, temperature := 1 / 10, max_tokens := 2048 }) ∧
    (strContains (resolveModel model) "gpt-3.5-turbo" = false →
      generate_text model cfg =
        { model := resolveModel model, temperature := configTemperature cfg,
          max_tokens := configMaxTokens cfg }) ∧
    generate_text "mistral-7b" (some ⟨some (7 / 10), some 512⟩) =
      { model := "huggingface/mistral-7b", temperature := 7 / 10, max_tokens := 512 } := by
  refine ⟨fun h => ?_, fun h => ?_, rfl⟩
  · unfold generate_text
    rw [if_pos h]
  · unfold generate_text
    rw [if_neg (by simp [h])]
    cases cfg <;> rfl

lemma sw_append_of_le (pat : List Char) :
    ∀ (xs ys : List Char), pat.length ≤ xs.length →
      startsWithChars pat (xs ++ ys) = startsWithChars pat xs := by
  induction pat with
  | nil => intro xs ys _; rfl
  | cons a as ih =>
    intro xs ys h
    cases xs with
    | nil => simp at h
    | cons x xs' =>
      simp only [List.cons_append, startsWithChars, List.append_eq]
      rw [ih xs' ys (Nat.le_of_succ_le_succ (by simpa using h))]

lemma sw_false_of_lt (pat : List Char) :
    ∀ xs : List Char, xs.length < pat.length → startsWithChars pat xs = false := by
  induction pat with
  | nil => intro xs h; simp at h
  | cons a as ih =>
    intro xs h
    cases xs with
    | nil => rfl
    | cons x xs' =>
      simp only [startsWithChars]
      rw [ih xs' (Nat.lt_of_succ_lt_succ (by simpa using h)), Bool.and_false]

lemma sw_split :
    ∀ (xs pat ys : List Char), xs.length ≤ pat.length →
      startsWithChars pat (xs ++ ys) =
        (startsWithChars (pat.take xs.length) xs &&
          startsWithChars (pat.drop xs.length) ys) := by
  intro xs
  induction xs with
  | nil => intro pat ys _; simp [startsWithChars]
  | cons x xs' ih =>
    intro pat ys h
    cases pat with
    | nil => simp at h
    | cons a as =>
      simp only [List.cons_append, startsWithChars, List.append_eq, List.length_cons,
        List.take_succ_cons, List.drop_succ_cons]
      rw [ih as ys (Nat.le_of_succ_le_succ (by simpa using h)), Bool.and_assoc]

/-- No non-trivial suffix of `pat` is an initial segment of `ys`: an
occurrence of `pat` in `xs ++ ys` cannot straddle the boundary. -/
def noStraddle (pat ys : List Char) : Bool :=
  (List.range pat.length).all (fun j => j == 0 || !(startsWithChars (pat.drop j) ys))

lemma containsChars_append (pat : List Char) (hp : pat ≠ []) :
    ∀ (xs ys : List Char), noStraddle pat ys = true →
      containsChars pat (xs ++ ys) = (containsChars pat xs || containsChars pat ys) := by
  intro xs ys hns
  have hstr : ∀ j, 0 < j → j < pat.length → startsWithChars (pat.drop j) ys = false := by
    intro j hj hjl
    have hmem := List.all_eq_true.mp hns j (List.mem_range.mpr hjl)
    rcases Bool.or_eq_true_iff.mp hmem with h0 | hsw
    · exact absurd (by simpa using h0) (Nat.pos_iff_ne_zero.mp hj)
    · simpa using hsw
  induction xs with
  | nil =>
    cases pat with
    | nil => exact absurd rfl hp
    | cons a as => simp [containsChars]
  | cons x xs' ih =>
    simp only [List.cons_append, containsChars, ih, List.append_eq]
    by_cases hle : pat.length ≤ (x :: xs').length
    · rw [← List.cons_append, sw_append_of_le pat (x :: xs') ys hle, Bool.or_assoc]
    · push_neg at hle
      rw [← List.cons_append, sw_split (x :: xs') pat ys (Nat.le_of_lt hle),
        hstr (x :: xs').length (Nat.succ_pos _) hle, Bool.and_false,
        sw_false_of_lt pat (x :: xs') hle]
      simp [Bool.or_assoc]

lemma strContains_append (a b pat : String) (hp : pat.data ≠ [])
    (hns : noStraddle pat.data b.data = true) :
    strContains (a ++ b) pat = (strContains a pat || strContains b pat) := by
  unfold strContains
  rw [String.data_append]
  exact containsChars_append pat.data hp a.data b.data hns

lemma strLower_append (a b : String) : strLower (a ++ b) = strLower a ++ strLower b := by
  show String.mk ((a ++ b).data.map Char.toLower) =
    String.mk (a.data.map Char.toLower) ++ String.mk (b.data.map Char.toLower)
  rw [String.data_append, List.map_append]
  rfl

lemma strContains_lower_append (prm d pat : String) (hp : pat.data ≠ [])
    (hns : noStraddle pat.data (strLower d).data = true) :
    strContains (strLower (prm ++ d)) pat =
      (strContains (strLower prm) pat || strContains (strLower d) pat) := by
  rw [strLower_append]
  exact strContains_append _ _ _ hp hns

lemma chartRuleFires_python (prm : String) :
    chartRuleFires prm "python" =
      (strContains (strLower prm) "chart" || strContains (strLower prm) "plot" ||
        strContains (strLower prm) "graph") := by
  unfold chartRuleFires augGraph
  by_cases hg : strContains (strLower prm) "graph" = true
  · have hd : graphDirective "python" =
        some "\nusing Python use Matplotlib save the graph in file called 'graph.png'" := rfl
    rw [if_pos hg, hg, hd]
    simp only [appendDirective]
    rw [strContains_lower_append _ _ _ (by decide) (by decide),
      strContains_lower_append _ _ _ (by decide) (by decide)]
    have h1 : strContains
        (strLower "\nusing Python use Matplotlib save the graph in file called 'graph.png'")
        "chart" = false := by decide
    have h2 : strContains
        (strLower "\nusing Python use Matplotlib save the graph in file called 'graph.png'")
        "plot" = true := by decide
    rw [h1, h2]
    simp
  · rw [if_neg hg]
    rw [Bool.not_eq_true] at hg
    rw [hg]
    simp

lemma chartRuleFires_javascript (prm : String) :
    chartRuleFires prm "javascript" =
      (strContains (strLower prm) "chart" || strContains (strLower prm) "plot" ||
        strContains (strLower prm) "graph") := by
  unfold chartRuleFires augGraph
  by_cases hg : strContains (strLower prm) "graph" = true
  · have hd : graphDirective "javascript" =
        some "\nusing JavaScript use Chart.js save the graph in file called 'graph.png'" := rfl
    rw [if_pos hg, hg, hd]
    simp only [appendDirective]
    rw [strContains_lower_append _ _ _ (by decide) (by decide),
      strContains_lower_append _ _ _ (by decide) (by decide)]
    have h1 : strContains
        (strLower "\nusing JavaScript use Chart.js save the graph in file called 'graph.png'")
        "chart" = true := by decide
    rw [h1]
    simp
  · rw [if_neg hg]
    rw [Bool.not_eq_true] at hg
    rw [hg]
    simp

lemma table_augGraph_python (prm : String) :
    strContains (strLower (augGraph prm "python")) "table" =
      strContains (strLower prm) "table" := by
  unfold augGraph
  by_cases hg : strContains (strLower prm) "graph" = true
  · have hd : graphDirective "python" =
        some "\nusing Python use Matplotlib save the graph in file called 'graph.png'" := rfl
    rw [if_pos hg, hd]
    simp only [appendDirective]
    rw [strContains_lower_append _ _ _ (by decide) (by decide)]
    have h1 : strContains
        (strLower "\nusing Python use Matplotlib save the graph in file called 'graph.png'")
        "table" = false := by decide
    rw [h1, Bool.or_false]
  · rw [if_neg hg]

lemma table_augGraph_javascript (prm : String) :
    strContains (strLower (augGraph prm "javascript")) "table" =
      strContains (strLower prm) "table" := by
  unfold augGraph
  by_cases hg : strContains (strLower prm) "graph" = true
  · have hd : graphDirective "javascript" =
        some "\nusing JavaScript use Chart.js save the graph in file called 'graph.png'" := rfl
    rw [if_pos hg, hd]
    simp only [appendDirective]
    rw [strContains_lower_append _ _ _ (by decide) (by decide)]
    have h1 : strContains
        (strLower "\nusing JavaScript use Chart.js save the graph in file called 'graph.png'")
        "table" = false := by decide
    rw [h1, Bool.or_false]
  · rw [if_neg hg]

lemma tableRuleFires_python (prm : String) :
    tableRuleFires prm "python" = strContains (strLower prm) "table" := by
  unfold tableRuleFires augChart
  by_cases hc : (strContains (strLower (augGraph prm "python")) "chart" ||
      strContains (strLower (augGraph prm "python")) "plot") = true
  · rw [if_pos hc]
    have hd : chartDirective "python" =
        some "\nusing Python use Plotly save the chart in file called 'chart.png'" := rfl
    rw [hd]
    simp only [appendDirective]
    rw [strContains_lower_append _ _ _ (by decide) (by decide)]
    have h1 : strContains
        (strLower "\nusing Python use Plotly save the chart in file called 'chart.png'")
        "table" = false := by decide
    rw [h1, Bool.or_false]
    exact table_augGraph_python prm
  · rw [if_neg hc]
    exact table_augGraph_python prm

lemma tableRuleFires_javascript (prm : String) :
    tableRuleFires prm "javascript" = strContains (strLower prm) "table" := by
  unfold tableRuleFires augChart
  by_cases hc : (strContains (strLower (augGraph prm "javascript")) "chart" ||
      strContains (strLower (augGraph prm "javascript")) "plot") = true
  · rw [if_pos hc]
    have hd : chartDirective "javascript" =
        some "\nusing JavaScript use Chart.js save the chart in file called 'chart.png'" := rfl
    rw [hd]
    simp only [appendDirective]
    rw [strContains_lower_append _ _ _ (by decide) (by decide)]
    have h1 : strContains
        (strLower "\nusing JavaScript use Chart.js save the chart in file called 'chart.png'")
        "table" = false := by decide
    rw [h1, Bool.or_false]
    exact table_augGraph_javascript prm
  · rw [if_neg hc]
    exact table_augGraph_javascript prm

lemma augment_other (prm lang : String) (h1 : lang ≠ "python") (h2 : lang ≠ "javascript") :
    augmentPrompt prm lang = prm := by
  have hgd : graphDirective lang = none := by
    unfold graphDirective
    rw [if_neg (by simp [h1]), if_neg (by simp [h2])]
  have hcd : chartDirective lang = none := by
    unfold chartDirective
    rw [if_neg (by simp [h1]), if_neg (by simp [h2])]
  have htd : tableDirective lang = none := by
    unfold tableDirective
    rw [if_neg (by simp [h1]), if_neg (by simp [h2])]
  unfold augmentPrompt augTable augChart augGraph
  rw [hgd, hcd, htd]
  simp only [appendDirective, ite_self]

/-- Counterexample to claim C6: for the rendered prompt `make a graph` in
python, the chart rule fires although the rendered prompt contains neither
`chart` nor `plot` — the chart check at line 288 reads the prompt already
extended by the graph directive, whose `Matplotlib` contains `plot`.  The
result is therefore not the graph directive alone. -/
theorem chart_rule_without_chart_match :
    strContains (strLower "make a graph") "chart" = false ∧
      strContains (strLower "make a graph") "plot" = false ∧
      strContains (strLower (augmentPrompt "make a graph" "python")) "chart.png" = true ∧
      augmentPrompt "make a graph" "python" ≠
        "make a graph" ++
          "\nusing Python use Matplotlib save the graph in file called 'graph.png'" := by
  refine ⟨by decide, by decide, by decide, by decide⟩

/-- Claim C6 as amended: the augmentation rules use plain case-insensitive
substring matching (`telegraph` matches `graph`) and append the directives
the claim names, but the chart/plot and table checks read the prompt as
already augmented by earlier rules: for python and javascript the chart rule
fires exactly when the rendered prompt contains `chart` or `plot` **or**
`graph` (the appended graph directive contains `Matplotlib` resp.
`Chart.js`); the table rule is unaffected by the cascade; languages other
than python and javascript get no directives. -/
theorem augmentation_cascaded (prm lang : String) :
    (strContains (strLower prm) "graph" = true →
      augGraph prm "python" =
          prm ++ "\nusing Python use Matplotlib save the graph in file called 'graph.png'" ∧
        augGraph prm "javascript" =
          prm ++ "\nusing JavaScript use Chart.js save the graph in file called 'graph.png'") ∧
    (chartRuleFires prm "python" =
      (strContains (strLower prm) "chart" || strContains (strLower prm) "plot" ||
        strContains (strLower prm) "graph")) ∧
    (chartRuleFires prm "javascript" =
      (strContains (strLower prm) "chart" || strContains (strLower prm) "plot" ||
        strContains (strLower prm) "graph")) ∧
    (tableRuleFires prm "python" = strContains (strLower prm) "table") ∧
    (tableRuleFires prm "javascript" = strContains (strLower prm) "table") ∧
    (lang ≠ "python" → lang ≠ "javascript" → augmentPrompt prm lang = prm) ∧
    strContains (strLower "telegraph") "graph" = true := by
  refine ⟨fun hg => ⟨?_, ?_⟩, chartRuleFires_python prm, chartRuleFires_javascript prm,
    tableRuleFires_python prm, tableRuleFires_javascript prm,
    fun h1 h2 => augment_other prm lang h1 h2, by decide⟩
  · unfold augGraph
    rw [if_pos hg]
    rfl
  · unfold augGraph
    rw [if_pos hg]
    rfl

end InterpLib
